import Mathlib

/-!
Verification of the layout core declared in
`src/ux-core/tns-core-modules/ui/core/view/view.d.ts`.

The repository ships only the TypeScript declaration file (signatures and
doc comments); no method bodies are present under `src/`.  Every operation
below is therefore modelled from the specification's description of the
layout protocol (measure-spec codec, size/state encoder, measure state
machine, invalidation propagator, child measurement and placement helpers),
staying faithful to the declaration file's documented contracts.
-/

namespace ViewLayout

/-- Measure-spec mode: `Unspecified` means no constraint, `Exactly` means the
dimension is fixed by the parent, `AtMost` means an upper bound. -/
inductive SpecMode where
  | Unspecified
  | Exactly
  | AtMost
deriving DecidableEq, Repr

/-- Numeric code of a mode, stored in the high 2 bits of a packed spec. -/
def SpecMode.code : SpecMode → Nat
  | .Unspecified => 0
  | .Exactly => 1
  | .AtMost => 2

/-- Decode a mode from its numeric code. -/
def SpecMode.ofCode (c : Nat) : SpecMode :=
  if c = 1 then .Exactly else if c = 2 then .AtMost else .Unspecified

/-- Modelled from the spec: the measure-spec codec (`makeSpec`) packs a
(mode, size) pair into a single integer, low 30 bits holding the size and
the high 2 bits holding the mode; the body is absent from `src/` (only the
declaration of `measure` and its doc comment mention the encoding). -/
def makeMeasureSpec (size : Nat) (mode : SpecMode) : Nat :=
  size % 2 ^ 30 + mode.code * 2 ^ 30

/-- Modelled from the spec: extract the size field (low 30 bits) of a packed
measure spec. -/
def specSize (spec : Nat) : Nat :=
  spec % 2 ^ 30

/-- Modelled from the spec: extract the mode field (high 2 bits) of a packed
measure spec. -/
def specMode (spec : Nat) : SpecMode :=
  SpecMode.ofCode (spec / 2 ^ 30)

/-- A measure spec in unpacked form: one axis constraint handed from parent
to child. -/
structure MSpec where
  size : Nat
  mode : SpecMode
deriving DecidableEq, Repr

/-- Per-axis outcome of a measurement pass: a resolved dimension together
with the "too small" flag. The bit-packed layout is left open by the spec,
so the pair is modelled as a record. -/
structure MeasuredState where
  size : Nat
  tooSmall : Bool
deriving DecidableEq, Repr

/-- Modelled from the spec: `resolveSizeAndState(desiredSize, spec,
childTooSmall)` reconciles a desired size against an imposed spec following
the policy table of the spec (Exactly takes `spec.size` with no flag;
AtMost takes the minimum and flags when the desired size exceeds the bound;
Unspecified takes the desired size), with the forwarded child flag
OR-combined into the result; the body is absent from `src/`. -/
def resolveSizeAndState (desiredSize : Nat) (spec : MSpec)
    (childTooSmall : Bool) : MeasuredState :=
  match spec.mode with
  | .Exactly => ⟨spec.size, false || childTooSmall⟩
  | .AtMost => ⟨min desiredSize spec.size,
      decide (spec.size < desiredSize) || childTooSmall⟩
  | .Unspecified => ⟨desiredSize, false || childTooSmall⟩

/-- Modelled from the spec: `combineMeasuredStates(curState, newState)`
bitwise-ORs the two "too small" flags, the size fields being combined
independently of the flags (bitwise OR of the size fields, as in the
compound-integer encoding); the body is absent from `src/`. -/
def combineMeasuredStates (curState newState : MeasuredState) : MeasuredState :=
  ⟨Nat.lor curState.size newState.size, curState.tooSmall || newState.tooSmall⟩

/-- Per-node layout state: the two stored measured dimensions, whether a
measured dimension has been recorded, and how many times
`setMeasuredDimension` has been invoked on the node. -/
structure NodeState where
  measuredWidth : Nat
  measuredHeight : Nat
  measuredSet : Bool
  setCalls : Nat
deriving DecidableEq, Repr

/-- Modelled from the spec: `setMeasuredDimension(width, height)` stores the
two measured dimension values and transitions the node to `Measured`; the
body is absent from `src/`. The call counter records each invocation. -/
def setMeasuredDimension (s : NodeState) (w h : Nat) : NodeState :=
  { s with measuredWidth := w, measuredHeight := h,
           measuredSet := true, setCalls := s.setCalls + 1 }

/-- The observable effect of an `onMeasure` override: either it calls
`setMeasuredDimension` once with the given pair before returning, or it
returns without calling it. (The override contract of the spec forbids more
than one call per axis pair, so the conforming behaviours are these two.) -/
def OnMeasureEffect : Type := Option (Nat × Nat)

/-- Modelled from the spec: `measure(widthSpec, heightSpec)`, on the path
where memoization does not skip recomputation, invokes the overridable
`onMeasure` step; if that override returned without calling
`setMeasuredDimension`, measurement fails with a fatal programming error
and no defaulted size is stored, otherwise the recorded dimension stands;
the body is absent from `src/` (the declaration's doc comment states that
failure to call `setMeasuredDimension` triggers an exception thrown by
`measure`). -/
def measureNode (s : NodeState) (override : OnMeasureEffect) :
    Except String NodeState :=
  match override with
  | none =>
      Except.error
        "onMeasure() did not set the measured dimension by calling setMeasuredDimension()"
  | some (w, h) => Except.ok (setMeasuredDimension s w h)

/-- A view tree for the invalidation propagator: nodes are indexed by
naturals, `parent` gives each node's parent (none at a root), and `valid`
is each node's `isLayoutValid` flag. -/
structure TreeState where
  parent : Nat → Option Nat
  valid : Nat → Bool

/-- Well-formed parent map: a parent's index is strictly below its child's,
so every upward walk terminates. -/
def Decreasing (pf : Nat → Option Nat) : Prop :=
  ∀ i j, pf i = some j → j < i

/-- Ancestor relation induced by a parent map. -/
inductive Anc (pf : Nat → Option Nat) : Nat → Nat → Prop where
  | parent {n p : Nat} : pf n = some p → Anc pf p n
  | trans {n p a : Nat} : pf n = some p → Anc pf a p → Anc pf a n

/-- Mark one node's `isLayoutValid` flag false. -/
def markInvalid (v : Nat → Bool) (n : Nat) : Nat → Bool :=
  fun m => if m = n then false else v m

/-- Modelled from the spec: the upward walk of the invalidation propagator —
from the current node, move to the parent, stop at a root or at a node
already invalid, otherwise clear its flag and continue; the body is absent
from `src/`. `fuel` bounds the walk; any `fuel ≥ n` is enough on a
decreasing parent map. -/
def walkUp (pf : Nat → Option Nat) : Nat → (Nat → Bool) → Nat → (Nat → Bool)
  | 0, v, _ => v
  | fuel + 1, v, n =>
      match pf n with
      | none => v
      | some p => if v p then walkUp pf fuel (markInvalid v p) p else v

/-- Modelled from the spec: `requestLayout()` sets `isLayoutValid = false`
on this node and propagates the invalidation upward until reaching a node
already invalid or the root; the body is absent from `src/`. -/
def requestLayout (s : TreeState) (n : Nat) : TreeState :=
  { s with valid := walkUp s.parent n (markInvalid s.valid n) n }

/-- Invalidity is upward closed: an invalid node's parent is invalid. This
is the invariant the propagator maintains across reachable states (every
invalidation propagates to the root, and a layout pass validates a node
only together with its ancestors). -/
def UpClosed (pf : Nat → Option Nat) (v : Nat → Bool) : Prop :=
  ∀ n p, pf n = some p → v n = false → v p = false

/-- Invalidity upward closed except possibly at one node (the walk's current
node, just marked and whose parent is not yet processed). -/
def UpClosedExcept (pf : Nat → Option Nat) (v : Nat → Bool) (cur : Nat) : Prop :=
  ∀ n p, pf n = some p → v n = false → n ≠ cur → v p = false

/-- Declared size style of a child along one axis: a fixed device-pixel
length, a percent of the parent's available size (normalized numerator out
of 100), or auto/unspecified. -/
inductive SizeStyle where
  | fixed (v : Nat)
  | percentOf (num : Nat)
  | auto
deriving DecidableEq, Repr

/-- Layout-relevant data of a view passed to the static child helpers. -/
structure ViewData where
  marginLeft : Int
  marginTop : Int
  marginRight : Int
  marginBottom : Int
  widthStyle : SizeStyle
  heightStyle : SizeStyle
  measuredWidth : Int
  measuredHeight : Int
deriving DecidableEq, Repr

/-- Available size left for a child along one axis: the parent's size minus
the child's two margins, clamped at zero when the subtraction goes
negative. -/
def childAvailable (parentSize marginA marginB : Int) : Int :=
  max 0 (parentSize - marginA - marginB)

/-- Modelled from the spec: the one-axis core of `measureChild` — subtract
the child's resolved margins from the parent's available size, clamping a
negative result to zero, then derive the child's own spec (fixed length →
`Exactly` at that length; percent → resolved against the available size,
then `Exactly`; auto → `AtMost` at the available size under a bounded
parent, `Unspecified` under an unbounded one); the body is absent from
`src/`. Sizes are signed here so that the negative intermediate is
representable. -/
def deriveChildSpec (parentMode : SpecMode) (parentSize : Int)
    (marginA marginB : Int) (style : SizeStyle) : Int × SpecMode :=
  let available := childAvailable parentSize marginA marginB
  match style with
  | .fixed v => ((v : Int), .Exactly)
  | .percentOf num => (available * (num : Int) / 100, .Exactly)
  | .auto =>
      match parentMode with
      | .Unspecified => (available, .Unspecified)
      | _ => (available, .AtMost)

/-- Modelled from the spec and the declaration of `measureChild` (whose
`parent` parameter is documented "This parameter is not used. You can pass
null."): derive the child's specs on both axes from the parent's specs and
the child's margins and size styles, and return the child's measured pair
(each axis measured as the spec size under `Exactly`, the declared/derived
size otherwise — the exact child `onMeasure` is the child's own and does
not involve `parent` either). -/
def measureChild (parent : Option ViewData) (child : ViewData)
    (widthSpec heightSpec : MSpec) : Int × Int :=
  let _ := parent
  let wd := deriveChildSpec widthSpec.mode (widthSpec.size : Int)
      child.marginLeft child.marginRight child.widthStyle
  let hd := deriveChildSpec heightSpec.mode (heightSpec.size : Int)
      child.marginTop child.marginBottom child.heightStyle
  (wd.1, hd.1)

/-- Horizontal alignment of a child inside its slot. -/
inductive HAlign where
  | left
  | center
  | right
  | stretch
deriving DecidableEq, Repr

/-- Modelled from the spec: the horizontal core of `layoutChild` — subtract
the margins from `[left, right]` to get the slot, then place the child's
measured width in it by alignment: flush to the start under `left`,
remainder split evenly (floor on the leading side, so the extra odd pixel
falls on the trailing side) under `center`, flush to the end under `right`,
the full slot under `stretch`; the body is absent from `src/`. Returns the
child's resolved (childLeft, childRight). -/
def placeHorizontal (align : HAlign) (left right marginL marginR childW : Int) :
    Int × Int :=
  match align with
  | .left => (left + marginL, left + marginL + childW)
  | .center =>
      let slot := right - left - marginL - marginR
      let leading := (slot - childW) / 2
      (left + marginL + leading, left + marginL + leading + childW)
  | .right => (right - marginR - childW, right - marginR)
  | .stretch => (left + marginL, right - marginR)

/-- Modelled from the spec and the declaration of `layoutChild` (whose
`parent` parameter is documented "This parameter is not used. You can pass
null."): resolve the child's rectangle inside the given bounds from its
margins, measured sizes and alignments alone. Vertical placement reuses the
horizontal core with top/bottom data (`HAlign.left` standing for `Top`,
`HAlign.right` for `Bottom`). -/
def layoutChild (parent : Option ViewData) (child : ViewData)
    (halign valign : HAlign) (left top right bottom : Int) :
    Int × Int × Int × Int :=
  let _ := parent
  let hpos := placeHorizontal halign left right
      child.marginLeft child.marginRight child.measuredWidth
  let vpos := placeHorizontal valign top bottom
      child.marginTop child.marginBottom child.measuredHeight
  (hpos.1, vpos.1, hpos.2, vpos.2)

/-- Modelled from the spec: `_getValue` is declared obsolete with return
type `never` in `src/`, so every call throws and none returns a value; the
body is absent from `src/`. The node's layout state is returned untouched
alongside the error (`Empty` witnesses that no normal return exists). -/
def getValueObsolete (s : NodeState) (property : Nat) :
    NodeState × Except String Empty :=
  let _ := property
  (s, Except.error "_getValue is obsolete. There is a new property system.")

/-- Modelled from the spec: `_setValue` is declared obsolete with return
type `never` in `src/`, so every call throws and none returns a value; the
body is absent from `src/`. -/
def setValueObsolete (s : NodeState) (property : Nat) (value : Nat) :
    NodeState × Except String Empty :=
  let _ := (property, value)
  (s, Except.error "_setValue is obsolete. There is a new property system.")

lemma markInvalid_preserves_false {v : Nat → Bool} {p m : Nat}
    (h : v m = false) : markInvalid v p m = false := by
  unfold markInvalid
  split <;> simp [h]

lemma walkUp_preserves_false (pf : Nat → Option Nat) :
    ∀ fuel (v : Nat → Bool) (n m : Nat), v m = false →
      walkUp pf fuel v n m = false := by
  intro fuel
  induction fuel with
  | zero => intro v n m h; simpa [walkUp] using h
  | succ fuel ih =>
      intro v n m h
      unfold walkUp
      cases hp : pf n with
      | none => simpa using h
      | some p =>
          by_cases hvp : v p
          · simpa [hvp] using ih (markInvalid v p) p m
              (markInvalid_preserves_false h)
          · simp at hvp
            simpa [hvp] using h

lemma anc_lt {pf : Nat → Option Nat} (hdec : Decreasing pf) {a n : Nat}
    (h : Anc pf a n) : a < n := by
  induction h with
  | parent hp => exact hdec _ _ hp
  | trans hp _ ih => exact lt_trans ih (hdec _ _ hp)

lemma chain_false {pf : Nat → Option Nat} {v : Nat → Bool} {cur : Nat}
    (hdec : Decreasing pf) (hue : UpClosedExcept pf v cur) :
    ∀ a x, Anc pf a x → x < cur → v x = false → v a = false := by
  intro a x h
  induction h with
  | parent hp =>
      intro hlt hx
      exact hue _ _ hp hx (Nat.ne_of_lt hlt)
  | trans hp _ ih =>
      intro hlt hx
      have hplt := hdec _ _ hp
      have hvp := hue _ _ hp hx (Nat.ne_of_lt hlt)
      exact ih (lt_trans hplt hlt) hvp

lemma walkUp_all_false {pf : Nat → Option Nat} (hdec : Decreasing pf) :
    ∀ fuel n (v : Nat → Bool), n ≤ fuel → v n = false →
      UpClosedExcept pf v n →
      walkUp pf fuel v n n = false ∧
      ∀ a, Anc pf a n → walkUp pf fuel v n a = false := by
  intro fuel
  induction fuel with
  | zero =>
      intro n v hle hv _
      refine ⟨by simpa [walkUp] using hv, ?_⟩
      intro a ha
      have := anc_lt hdec ha
      omega
  | succ fuel ih =>
      intro n v hle hv hue
      unfold walkUp
      cases hp : pf n with
      | none =>
          refine ⟨by simpa using hv, ?_⟩
          intro a ha
          cases ha with
          | parent hq => rw [hp] at hq; cases hq
          | trans hq _ => rw [hp] at hq; cases hq
      | some p =>
          have hpn : p < n := hdec _ _ hp
          by_cases hvp : v p
          · simp only [hvp, if_true]
            have hmarked : markInvalid v p p = false := by simp [markInvalid]
            have hue2 : UpClosedExcept pf (markInvalid v p) p := by
              intro m q hm hmf hne
              by_cases hmn : m = n
              · subst hmn
                rw [hp] at hm
                cases hm
                simp [markInvalid]
              · have hvm : v m = false := by
                  simpa [markInvalid, hne] using hmf
                exact markInvalid_preserves_false (hue _ _ hm hvm hmn)
            obtain ⟨h1, h2⟩ := ih p (markInvalid v p) (by omega) hmarked hue2
            refine ⟨?_, ?_⟩
            · exact walkUp_preserves_false pf fuel (markInvalid v p) p n
                (markInvalid_preserves_false hv)
            · intro a ha
              cases ha with
              | parent hq =>
                  rw [hp] at hq
                  cases hq
                  exact h1
              | trans hq hanc =>
                  rw [hp] at hq
                  cases hq
                  exact h2 _ hanc
          · simp at hvp
            simp only [hvp, Bool.false_eq_true, if_false]
            refine ⟨hv, ?_⟩
            intro a ha
            cases ha with
            | parent hq =>
                rw [hp] at hq
                cases hq
                exact hvp
            | trans hq hanc =>
                rw [hp] at hq
                cases hq
                exact chain_false hdec hue _ _ hanc hpn hvp

/-- A three-node demonstration tree: node `i` has parent `i - 1`, node `0`
is the root, and every node starts with a valid layout. -/
def demoParent : Nat → Option Nat :=
  fun i => if i = 0 then none else some (i - 1)

/-- Demonstration tree state with every `isLayoutValid` flag set. -/
def demoTree : TreeState :=
  ⟨demoParent, fun _ => true⟩

/-- Claim C1: for every desired size, every spec with mode `Exactly` and
every forwarded child state, `resolveSizeAndState` returns a state whose
size equals `spec.size` regardless of the desired size, and whose own
too-small contribution is false — the result's flag is exactly the
forwarded child flag, OR-combined with false. -/
theorem resolveSizeAndState_exactly (desiredSize : Nat) (spec : MSpec)
    (childTooSmall : Bool) (h : spec.mode = SpecMode.Exactly) :
    (resolveSizeAndState desiredSize spec childTooSmall).size = spec.size ∧
    (resolveSizeAndState desiredSize spec childTooSmall).tooSmall =
      (false || childTooSmall) := by
  simp [resolveSizeAndState, h]

/-- Witness for C1 at desired size 7, spec `Exactly 5`, child flag true. -/
theorem resolveSizeAndState_exactly_witness :
    (resolveSizeAndState 7 ⟨5, SpecMode.Exactly⟩ true).size = (5 : Nat) ∧
    (resolveSizeAndState 7 ⟨5, SpecMode.Exactly⟩ true).tooSmall =
      (false || true) :=
  resolveSizeAndState_exactly 7 ⟨5, SpecMode.Exactly⟩ true rfl

/-- Claim C2: for every desired size and every spec with mode `AtMost`,
`resolveSizeAndState` returns size `min desiredSize spec.size` — never more
than `spec.size`, and exactly `desiredSize` whenever it fits — and the flag
contributed by this reconciliation is set iff `desiredSize > spec.size`
(the result flag being that bit OR-combined with the forwarded child
flag). -/
theorem resolveSizeAndState_atMost (desiredSize : Nat) (spec : MSpec)
    (childTooSmall : Bool) (h : spec.mode = SpecMode.AtMost) :
    (resolveSizeAndState desiredSize spec childTooSmall).size =
      min desiredSize spec.size ∧
    (resolveSizeAndState desiredSize spec childTooSmall).size ≤ spec.size ∧
    (desiredSize ≤ spec.size →
      (resolveSizeAndState desiredSize spec childTooSmall).size = desiredSize) ∧
    (resolveSizeAndState desiredSize spec childTooSmall).tooSmall =
      (decide (spec.size < desiredSize) || childTooSmall) := by
  refine ⟨by simp [resolveSizeAndState, h], ?_, ?_, by simp [resolveSizeAndState, h]⟩
  · simp [resolveSizeAndState, h]
  · intro hle
    simp [resolveSizeAndState, h, Nat.min_eq_left hle]

/-- Witness for C2 at desired size 9, spec `AtMost 5`, child flag false. -/
theorem resolveSizeAndState_atMost_witness :
    (resolveSizeAndState 9 ⟨5, SpecMode.AtMost⟩ false).size = min 9 5 ∧
    (resolveSizeAndState 9 ⟨5, SpecMode.AtMost⟩ false).size ≤ 5 ∧
    ((9 : Nat) ≤ 5 →
      (resolveSizeAndState 9 ⟨5, SpecMode.AtMost⟩ false).size = 9) ∧
    (resolveSizeAndState 9 ⟨5, SpecMode.AtMost⟩ false).tooSmall =
      (decide ((5 : Nat) < 9) || false) :=
  resolveSizeAndState_atMost 9 ⟨5, SpecMode.AtMost⟩ false rfl

/-- Claim C5: `combineMeasuredStates` is commutative and idempotent on the
too-small flag, and its size field is combined independently of the flags:
any two argument pairs sharing the same size fields yield the same combined
size. -/
theorem combineMeasuredStates_comm_idem (a b : MeasuredState) :
    (combineMeasuredStates a b).tooSmall = (combineMeasuredStates b a).tooSmall ∧
    (combineMeasuredStates a a).tooSmall = a.tooSmall ∧
    ∀ a2 b2 : MeasuredState, a2.size = a.size → b2.size = b.size →
      (combineMeasuredStates a2 b2).size = (combineMeasuredStates a b).size := by
  refine ⟨Bool.or_comm _ _, Bool.or_self _, ?_⟩
  intro a2 b2 ha hb
  simp [combineMeasuredStates, ha, hb]

/-- Witness for C5 at states (3, true) and (5, false). -/
theorem combineMeasuredStates_comm_idem_witness :
    (combineMeasuredStates ⟨3, true⟩ ⟨5, false⟩).tooSmall =
      (combineMeasuredStates ⟨5, false⟩ ⟨3, true⟩).tooSmall ∧
    (combineMeasuredStates ⟨3, true⟩ ⟨3, true⟩).tooSmall = true ∧
    ∀ a2 b2 : MeasuredState, a2.size = 3 → b2.size = 5 →
      (combineMeasuredStates a2 b2).size =
        (combineMeasuredStates ⟨3, true⟩ ⟨5, false⟩).size :=
  combineMeasuredStates_comm_idem ⟨3, true⟩ ⟨5, false⟩

/-- Claim C6: for every mode and every size fitting in the reserved 30-bit
width, the measure-spec codec round-trips: decoding the packed spec
recovers both the mode and the size. -/
theorem measureSpec_roundTrip (size : Nat) (mode : SpecMode)
    (h : size ≤ 2 ^ 30 - 1) :
    specSize (makeMeasureSpec size mode) = size ∧
    specMode (makeMeasureSpec size mode) = mode := by
  have hlt : size < 2 ^ 30 := by omega
  have hsz : size % 2 ^ 30 = size := Nat.mod_eq_of_lt hlt
  constructor
  · simp only [specSize, makeMeasureSpec, hsz, Nat.add_mul_mod_self_right]
  · have hdiv : (size + mode.code * 2 ^ 30) / 2 ^ 30 = mode.code := by
      rw [Nat.add_mul_div_right _ _ (by norm_num : (0 : Nat) < 2 ^ 30),
        Nat.div_eq_of_lt hlt, Nat.zero_add]
    simp only [specMode, makeMeasureSpec, hsz, hdiv]
    cases mode <;> simp [SpecMode.ofCode, SpecMode.code]

/-- Witness for C6 at size 5 in mode `AtMost`. -/
theorem measureSpec_roundTrip_witness :
    specSize (makeMeasureSpec 5 SpecMode.AtMost) = 5 ∧
    specMode (makeMeasureSpec 5 SpecMode.AtMost) = SpecMode.AtMost :=
  measureSpec_roundTrip 5 SpecMode.AtMost (by norm_num)

/-- Claim C3: in every well-formed tree whose invalidity flags are upward
closed (the invariant the propagator maintains), after `requestLayout` on a
node and before the next layout pass runs, `isLayoutValid` is false on that
node and on every ancestor up to the root. -/
theorem requestLayout_invalidates_ancestors (s : TreeState) (n : Nat)
    (hdec : Decreasing s.parent) (hup : UpClosed s.parent s.valid) :
    (requestLayout s n).valid n = false ∧
    ∀ a, Anc s.parent a n → (requestLayout s n).valid a = false := by
  have hue : UpClosedExcept s.parent (markInvalid s.valid n) n := by
    intro m q hm hmf hne
    have hvm : s.valid m = false := by
      simpa [markInvalid, hne] using hmf
    exact markInvalid_preserves_false (hup m q hm hvm)
  have hself : markInvalid s.valid n n = false := by simp [markInvalid]
  simpa [requestLayout] using
    walkUp_all_false hdec n n (markInvalid s.valid n) le_rfl hself hue

/-- Witness for C3 on the all-valid chain tree at node 2. -/
theorem requestLayout_invalidates_ancestors_witness :
    (requestLayout demoTree 2).valid 2 = false ∧
    ∀ a, Anc demoTree.parent a 2 → (requestLayout demoTree 2).valid a = false :=
  requestLayout_invalidates_ancestors demoTree 2
    (by
      intro i j h
      simp only [demoTree, demoParent] at h
      by_cases hi : i = 0
      · simp [hi] at h
      · simp [hi] at h
        omega)
    (by intro m p _ h; simp [demoTree] at h)

/-- Claim C4: on the non-memoized path, `measure` fails with a fatal error
exactly when the invoked `onMeasure` override returned without calling
`setMeasuredDimension`; in that case no state (and so no defaulted measured
size) is produced, and on the non-error path `setMeasuredDimension` has
been applied exactly once — the call counter grows by one and the recorded
dimensions are the single call's arguments. -/
theorem measure_fatal_iff_no_dimension (s : NodeState) (ov : OnMeasureEffect) :
    ((∃ msg, measureNode s ov = Except.error msg) ↔ ov = none) ∧
    (ov = none → ∀ t, measureNode s ov ≠ Except.ok t) ∧
    ∀ w h, ov = some (w, h) →
      measureNode s ov = Except.ok (setMeasuredDimension s w h) ∧
      (setMeasuredDimension s w h).setCalls = s.setCalls + 1 ∧
      (setMeasuredDimension s w h).measuredWidth = w ∧
      (setMeasuredDimension s w h).measuredHeight = h := by
  refine ⟨⟨?_, ?_⟩, ?_, ?_⟩
  · intro ⟨msg, hmsg⟩
    match ov with
    | none => rfl
    | some (w, h) => simp [measureNode] at hmsg
  · intro hov
    subst hov
    exact ⟨_, rfl⟩
  · intro hov t
    subst hov
    simp [measureNode]
  · intro w h hov
    subst hov
    exact ⟨rfl, rfl, rfl, rfl⟩

/-- Witness for C4: the erroring override at a blank node, and the
conforming override recording (3, 4). -/
theorem measure_fatal_iff_no_dimension_witness :
    (((∃ msg, measureNode ⟨0, 0, false, 0⟩ none = Except.error msg) ↔
        (none : OnMeasureEffect) = none) ∧
      ((none : OnMeasureEffect) = none →
        ∀ t, measureNode ⟨0, 0, false, 0⟩ none ≠ Except.ok t) ∧
      ∀ w h, (none : OnMeasureEffect) = some (w, h) →
        measureNode ⟨0, 0, false, 0⟩ none =
          Except.ok (setMeasuredDimension ⟨0, 0, false, 0⟩ w h) ∧
        (setMeasuredDimension ⟨0, 0, false, 0⟩ w h).setCalls = 0 + 1 ∧
        (setMeasuredDimension ⟨0, 0, false, 0⟩ w h).measuredWidth = w ∧
        (setMeasuredDimension ⟨0, 0, false, 0⟩ w h).measuredHeight = h) ∧
    ∀ w h, (some (3, 4) : OnMeasureEffect) = some (w, h) →
      measureNode ⟨0, 0, false, 0⟩ (some (3, 4)) =
        Except.ok (setMeasuredDimension ⟨0, 0, false, 0⟩ w h) ∧
      (setMeasuredDimension ⟨0, 0, false, 0⟩ w h).setCalls = 0 + 1 ∧
      (setMeasuredDimension ⟨0, 0, false, 0⟩ w h).measuredWidth = w ∧
      (setMeasuredDimension ⟨0, 0, false, 0⟩ w h).measuredHeight = h :=
  ⟨measure_fatal_iff_no_dimension ⟨0, 0, false, 0⟩ none,
    (measure_fatal_iff_no_dimension ⟨0, 0, false, 0⟩ (some (3, 4))).2.2⟩

/-- Claim C7: when the child placement helper centers a child and the
leftover space in the slot is odd and non-negative, the trailing side
receives exactly one more pixel than the leading side; in particular a
child measured at 51 inside a 100-wide slot with `Center` alignment and
zero margins is placed at left 24 (the helper is a pure function, so this
holds on every run). -/
theorem layoutChild_center_trailing_pixel (left right marginL marginR childW : Int)
    (hnonneg : 0 ≤ right - left - marginL - marginR - childW)
    (hodd : (right - left - marginL - marginR - childW) % 2 = 1) :
    ((right - marginR) -
        (placeHorizontal HAlign.center left right marginL marginR childW).2 =
      ((placeHorizontal HAlign.center left right marginL marginR childW).1 -
        (left + marginL)) + 1) ∧
    (layoutChild none
        ⟨0, 0, 0, 0, SizeStyle.auto, SizeStyle.auto, 51, 51⟩
        HAlign.center HAlign.left 0 0 100 100).1 = 24 := by
  constructor
  · simp only [placeHorizontal]
    omega
  · decide

/-- Witness for C7 on the 100-wide slot with zero margins and width 51. -/
theorem layoutChild_center_trailing_pixel_witness :
    ((100 - 0 : Int) -
        (placeHorizontal HAlign.center 0 100 0 0 51).2 =
      ((placeHorizontal HAlign.center 0 100 0 0 51).1 - (0 + 0)) + 1) ∧
    (layoutChild none
        ⟨0, 0, 0, 0, SizeStyle.auto, SizeStyle.auto, 51, 51⟩
        HAlign.center HAlign.left 0 0 100 100).1 = 24 :=
  layoutChild_center_trailing_pixel 0 100 0 0 51 (by decide) (by decide)

/-- Claim C8: for every parent constraint and child margin configuration,
the one-axis available size computed by the child measurement helper is
clamped to zero whenever the subtraction of margins would go negative, the
derived child spec size is always non-negative, and `measureChild` returns
non-negative measured sizes — the computation is total and never raises. -/
theorem measureChild_clamped_nonneg (parentMode : SpecMode)
    (parentSize marginA marginB : Int) (style : SizeStyle)
    (parent : Option ViewData) (child : ViewData) (ws hs : MSpec) :
    0 ≤ (deriveChildSpec parentMode parentSize marginA marginB style).1 ∧
    (parentSize - marginA - marginB < 0 →
      childAvailable parentSize marginA marginB = 0) ∧
    0 ≤ (measureChild parent child ws hs).1 ∧
    0 ≤ (measureChild parent child ws hs).2 := by
  have hav : ∀ ps a b : Int, 0 ≤ childAvailable ps a b := by
    intro ps a b
    exact le_max_left 0 _
  have hder : ∀ (pm : SpecMode) (ps a b : Int) (st : SizeStyle),
      0 ≤ (deriveChildSpec pm ps a b st).1 := by
    intro pm ps a b st
    cases st with
    | fixed v => simp [deriveChildSpec]
    | percentOf num =>
        simp only [deriveChildSpec]
        exact Int.ediv_nonneg (mul_nonneg (hav ps a b) (Int.natCast_nonneg num))
          (by norm_num)
    | auto => cases pm <;> simpa [deriveChildSpec] using hav ps a b
  refine ⟨hder _ _ _ _ _, ?_, hder _ _ _ _ _, hder _ _ _ _ _⟩
  intro hneg
  simp only [childAvailable]
  omega

/-- Witness for C8 with a parent size of 5 and margins 10 and 10. -/
theorem measureChild_clamped_nonneg_witness :
    0 ≤ (deriveChildSpec SpecMode.Exactly 5 10 10 SizeStyle.auto).1 ∧
    ((5 - 10 - 10 : Int) < 0 → childAvailable 5 10 10 = 0) ∧
    0 ≤ (measureChild none
        ⟨10, 10, 10, 10, SizeStyle.auto, SizeStyle.auto, 0, 0⟩
        ⟨5, SpecMode.Exactly⟩ ⟨5, SpecMode.Exactly⟩).1 ∧
    0 ≤ (measureChild none
        ⟨10, 10, 10, 10, SizeStyle.auto, SizeStyle.auto, 0, 0⟩
        ⟨5, SpecMode.Exactly⟩ ⟨5, SpecMode.Exactly⟩).2 :=
  measureChild_clamped_nonneg SpecMode.Exactly 5 10 10 SizeStyle.auto none
    ⟨10, 10, 10, 10, SizeStyle.auto, SizeStyle.auto, 0, 0⟩
    ⟨5, SpecMode.Exactly⟩ ⟨5, SpecMode.Exactly⟩

/-- Claim C9: the static child helpers are independent of their documented
unused `parent` argument — for any two parent values (including none),
`measureChild` returns the same measured pair and `layoutChild` resolves
the same child rectangle. -/
theorem childHelpers_parent_independent (p q : Option ViewData)
    (child : ViewData) (ws hs : MSpec) (halign valign : HAlign)
    (left top right bottom : Int) :
    measureChild p child ws hs = measureChild q child ws hs ∧
    layoutChild p child halign valign left top right bottom =
      layoutChild q child halign valign left top right bottom :=
  ⟨rfl, rfl⟩

/-- Claim C10: the obsolete accessors `_getValue` and `_setValue` never
return normally — every call yields an error and no value of the
(uninhabited) normal-return type — and neither mutates the node's layout
state. -/
theorem obsolete_accessors_never_return (s : NodeState) (property value : Nat) :
    (getValueObsolete s property).1 = s ∧
    (∀ e, (getValueObsolete s property).2 ≠ Except.ok e) ∧
    (∃ msg, (getValueObsolete s property).2 = Except.error msg) ∧
    (setValueObsolete s property value).1 = s ∧
    (∀ e, (setValueObsolete s property value).2 ≠ Except.ok e) ∧
    (∃ msg, (setValueObsolete s property value).2 = Except.error msg) :=
  ⟨rfl, fun e => e.elim, ⟨_, rfl⟩, rfl, fun e => e.elim, ⟨_, rfl⟩⟩

end ViewLayout
